import Mathlib

/-!
Verification of the `@mcpambassador/client` session-and-relay engine.

This file gives a shallow embedding of the client implemented in
`src/index.ts` (class `AmbassadorClient`) together with the stderr routing
installed by the CLI entry point (`configureStderrLogging` in `cli.ts`).

Modelling conventions:
* JavaScript values flowing through the JSON-RPC dispatcher are modelled by
  the inductive type `Json`; an absent object property (JS `undefined`) is
  modelled by `Option.none` at the lookup site.
* Asynchronous network calls are suspension points whose outcomes are inputs
  of the model: each method takes the outcome of the HTTP exchange it would
  perform (`Except HError ...`) as an explicit argument and returns the new
  client state, its own result, and the list of observable output events
  (stdout writes, stderr log lines, HTTP requests issued).
* `Date.now()` is an explicit `Int` parameter, `new Date().toISOString()` an
  explicit `String` parameter.
* Machine integers do not overflow in the modelled code paths (sizes are
  compared against 10485760 and 1048576, far below 2^53), so sizes are `Nat`.
-/

namespace Ambassador

/-- JSON values as produced by `JSON.parse` (numbers restricted to integers,
which covers every value the dispatcher inspects structurally). -/
inductive Json where
  | null : Json
  | bool : Bool → Json
  | num : Int → Json
  | str : String → Json
  | arr : List Json → Json
  | obj : List (String × Json) → Json

/-- Property lookup on a JS value: `v[k]` is `undefined` (here `none`) unless
`v` is an object carrying the key. -/
def getField (j : Json) (k : String) : Option Json :=
  match j with
  | .obj kvs => (kvs.find? (fun kv => kv.1 = k)).map (·.2)
  | _ => none

/-- JavaScript truthiness of a possibly-absent value (`undefined`, `null`,
`0`, `""` and `false` are falsy). -/
def truthy : Option Json → Bool
  | none => false
  | some .null => false
  | some (.bool b) => b
  | some (.num n) => n != 0
  | some (.str s) => s ≠ ""
  | some (.arr _) => true
  | some (.obj _) => true

/-- One tool descriptor from the backend catalog (`protocol-types.ts`,
`ToolDescriptor`; the optional metadata is irrelevant to the claims and
carried opaquely inside `input_schema`-like fields). -/
structure ToolDescriptor where
  name : String
  description : String
  input_schema : Json

/-- Backend answer to `GET /v1/tools` (`ToolCatalogResponse`). -/
structure ToolCatalogResponse where
  tools : List ToolDescriptor
  api_version : String
  timestamp : String

/-- Backend answer to `POST /v1/sessions/register` (`RegistrationResponse`). -/
structure RegistrationResponse where
  session_id : String
  session_token : String
  expires_at : String
  profile_id : String
  connection_id : String

/-- Backend answer to `POST /v1/tools/invoke` (`ToolInvocationResponse`). -/
structure ToolInvocationResponse where
  result : Json
  request_id : String
  timestamp : String

/-- Error taxonomy surfaced by `httpRequest` (class `HttpError`, the
`Invalid JSON response` rejection, plain network errors, and the wrapped
`Re-registration failed:` error produced by the 401 retry path). -/
inductive HError where
  | httpErr (status : Nat) (errorCode : String) (errorMessage : String)
  | invalidJson
  | network (msg : String)
  | reregFailed (inner : HError)

/-- Client configuration after the constructor has applied its defaults and
clamping (`ClientConfig` plus the normalisation in the constructor). -/
structure ClientConfig where
  server_url : String
  preshared_key : String
  friendly_name : String
  host_tool : String
  heartbeat_interval_seconds : Nat
  cache_ttl_seconds : Nat
  disable_cache : Bool
  allow_self_signed : Bool

/-- Tool catalog cache entry (`CachedCatalog`). -/
structure CachedCatalog where
  tools : List ToolDescriptor
  cached_at : Int
  ttl_seconds : Nat

/-- Mutable fields of `AmbassadorClient`: the cache, the running flag, the
four ephemeral session fields, the heartbeat timer (modelled as a Boolean:
timer present or not) and the re-registration guard flag. -/
structure ClientState where
  toolCatalogCache : Option CachedCatalog
  isRunning : Bool
  sessionId : Option String
  sessionToken : Option String
  connectionId : Option String
  expiresAt : Option String
  heartbeatOn : Bool
  isReregistering : Bool

/-- Observable output of an operation: a write to stdout, a log line routed
to stderr (the CLI's `configureStderrLogging` rebinds `console.log/info/warn/
debug` to stderr, and `console.error` writes to stderr natively), or an HTTP
request issued to the backend. -/
inductive Event where
  | stdout (s : String)
  | stderr (s : String)
  | http (method : String) (path : String)

/-- The `stopHeartbeat()` helper: clears the timer if present. -/
def stopHeartbeat (s : ClientState) : ClientState :=
  { s with heartbeatOn := false }

/-- Character-level model of secrets for `maskSecret`: the `amb_pk_` marker. -/
def pkMark : List Char := "amb_pk_".data

/-- Character-level model of secrets for `maskSecret`: the `amb_st_` marker. -/
def stMark : List Char := "amb_st_".data

/-- Boolean test that `p` is an initial run of `l` (JS `String.startsWith`). -/
def leadsList : List Char → List Char → Bool
  | [], _ => true
  | _ :: _, [] => false
  | a :: as, b :: bs => a = b && leadsList as bs

/-- The `maskSecret` function of `index.ts` on character lists: `amb_pk_`
secrets show the marker plus `value.slice(7, 11)`, `amb_st_` secrets show the
marker only, other secrets of length at most 4 become `****`, and longer ones
show `slice(0,2) ++ "..." ++ slice(-2)`. -/
def maskSecret (v : List Char) : List Char :=
  if leadsList pkMark v then
    pkMark ++ (v.drop 7).take 4 ++ "****".data
  else if leadsList stMark v then
    stMark ++ "****".data
  else if v.length ≤ 4 then
    "****".data
  else
    v.take 2 ++ "...".data ++ v.drop (v.length - 2)

/-- Text of the registration log line (`register()` logs the preshared key
only through `maskSecret`). -/
def registerLogChars (key : List Char) : List Char :=
  "[client] Registering with preshared key: ".data ++ maskSecret key

/-- The `register()` method. The outcome of the underlying
`POST /v1/sessions/register` exchange is the `outcome` argument. On success
all four session fields are replaced at once, the catalog cache is
invalidated and the heartbeat is restarted; on failure the error is rethrown
and no session field is touched (the initial `stopHeartbeat()` has still
happened). -/
def registerM (cfg : ClientConfig) (s : ClientState)
    (outcome : Except HError RegistrationResponse) :
    ClientState × Except HError RegistrationResponse × List Event :=
  let s := stopHeartbeat s
  let logKey : Event := .stderr (String.mk (registerLogChars cfg.preshared_key.data))
  let req : Event := .http "POST" "/v1/sessions/register"
  match outcome with
  | .ok r =>
      ({ s with
          sessionId := some r.session_id
          sessionToken := some r.session_token
          connectionId := some r.connection_id
          expiresAt := some r.expires_at
          toolCatalogCache := none
          heartbeatOn := true },
       .ok r,
       [logKey, req,
        .stderr ("[client] Session registered: " ++ r.session_id),
        .stderr ("[client] Connection ID: " ++ r.connection_id),
        .stderr ("[client] Profile ID: " ++ r.profile_id),
        .stderr ("[client] Expires at: " ++ r.expires_at),
        .stderr ("[client] Heartbeat started")])
  | .error e =>
      (s, .error e, [logKey, req, .stderr "[client] Registration failed"])

/-- The `getToolCatalog()` method. `now`/`nowIso` model `Date.now()` and
`new Date().toISOString()`; `fetch` is the outcome of the
`GET /v1/tools` exchange in case one is performed. Returns the new state,
the result, and the events (the `Event.http` entry appears exactly when a
network fetch happens). -/
def getToolCatalogM (cfg : ClientConfig) (s : ClientState) (now : Int)
    (nowIso : String) (fetch : Except HError ToolCatalogResponse) :
    ClientState × Except HError ToolCatalogResponse × List Event :=
  let cachingDisabled := cfg.disable_cache || cfg.cache_ttl_seconds == 0
  match s.toolCatalogCache with
  | some c =>
      if !cachingDisabled && now - c.cached_at < (c.ttl_seconds : Int) * 1000 then
        (s, .ok { tools := c.tools, api_version := "1.0", timestamp := nowIso },
         [.stderr "[client] Using cached tool catalog"])
      else
        getToolCatalogFetch cfg s cachingDisabled now nowIso fetch
  | none => getToolCatalogFetch cfg s cachingDisabled now nowIso fetch
where
  /-- The fetch path of `getToolCatalog()`: perform the network request; on
  success replace the cache (unless caching is disabled); on failure fall
  back to any existing cache snapshot, else propagate the error. -/
  getToolCatalogFetch (cfg : ClientConfig) (s : ClientState)
      (cachingDisabled : Bool) (now : Int) (nowIso : String)
      (fetch : Except HError ToolCatalogResponse) :
      ClientState × Except HError ToolCatalogResponse × List Event :=
    let pre : List Event :=
      [.stderr "[client] Fetching tool catalog from server...",
       .http "GET" "/v1/tools"]
    match fetch with
    | .ok resp =>
        ({ s with toolCatalogCache :=
            if !cachingDisabled then
              some { tools := resp.tools, cached_at := now,
                     ttl_seconds := cfg.cache_ttl_seconds }
            else s.toolCatalogCache },
         .ok resp,
         pre ++ [.stderr "[client] Fetched tools"])
    | .error e =>
        match s.toolCatalogCache with
        | some c =>
            (s, .ok { tools := c.tools, api_version := "1.0", timestamp := nowIso },
             pre ++ [.stderr "[client] Failed to fetch tool catalog",
                     .stderr "[client] Using stale cache due to fetch failure"])
        | none =>
            (s, .error e,
             pre ++ [.stderr "[client] Failed to fetch tool catalog"])

/-- The `stop()` method. A client that is not running returns immediately
with no event; otherwise the running flag and heartbeat are cleared, a
best-effort disconnect is attempted when a connection identifier exists, and
all four session fields are reset to `null`. -/
def stopM (s : ClientState) : ClientState × List Event :=
  if !s.isRunning then (s, [])
  else
    let s₁ := stopHeartbeat { s with isRunning := false }
    let disconnectEvents : List Event :=
      match s₁.connectionId with
      | some cid =>
          [.http "DELETE" ("/v1/sessions/connections/" ++ cid),
           .stderr "[client] Sent disconnect to server (best-effort)"]
      | none => []
    ({ s₁ with
        sessionId := none
        sessionToken := none
        connectionId := none
        expiresAt := none },
     [.stderr "[client] Stopping MCP server..."] ++ disconnectEvents ++
       [.stderr "[client] MCP server stopped"])

/-- Branch condition of the cache-hit path in `getToolCatalog()`: caching is
not disabled and a cached snapshot exists whose age is below its TTL. -/
def servesFromCache (cfg : ClientConfig) (s : ClientState) (now : Int) : Bool :=
  match s.toolCatalogCache with
  | some c =>
      !(cfg.disable_cache || cfg.cache_ttl_seconds == 0) &&
        now - c.cached_at < (c.ttl_seconds : Int) * 1000
  | none => false

/-- Check whether an event trace contains an HTTP request. -/
def hasHttp (evs : List Event) : Bool :=
  evs.any fun e => match e with | .http _ _ => true | _ => false

/-- All-or-none shape of the four ephemeral session fields. -/
def SessionAllOrNone (s : ClientState) : Prop :=
  (s.sessionId.isSome ∧ s.sessionToken.isSome ∧ s.connectionId.isSome ∧
     s.expiresAt.isSome) ∨
  (s.sessionId = none ∧ s.sessionToken = none ∧ s.connectionId = none ∧
     s.expiresAt = none)

/-- Escape of a single character inside a JSON string literal
(`JSON.stringify` escaping, restricted to the escapes relevant here). -/
def escChar (c : Char) : String :=
  if c = '"' then "\\\""
  else if c = '\\' then "\\\\"
  else if c = '\n' then "\\n"
  else if c = '\r' then "\\r"
  else if c = '\t' then "\\t"
  else String.singleton c

/-- Escape of a full string for a JSON string literal. -/
def escapeString (s : String) : String :=
  String.join (s.data.map escChar)

mutual
/-- Serialisation of a JSON value (`JSON.stringify`). -/
def serializeJson : Json → String
  | .null => "null"
  | .bool b => cond b "true" "false"
  | .num n => toString n
  | .str s => "\"" ++ escapeString s ++ "\""
  | .arr xs => "[" ++ String.intercalate "," (serializeArr xs) ++ "]"
  | .obj kvs => "\x7b" ++ String.intercalate "," (serializeObj kvs) ++ "\x7d"

/-- Serialisation of the elements of a JSON array. -/
def serializeArr : List Json → List String
  | [] => []
  | x :: xs => serializeJson x :: serializeArr xs

/-- Serialisation of the fields of a JSON object. -/
def serializeObj : List (String × Json) → List String
  | [] => []
  | kv :: kvs =>
      ("\"" ++ escapeString kv.1 ++ "\":" ++ serializeJson kv.2) :: serializeObj kvs
end

/-- The success frame built by `sendJsonRpcResponse`: `JSON.stringify` omits
the `id` key entirely when the value is `undefined` (here `none`). -/
def mkResponse (id : Option Json) (result : Json) : Json :=
  .obj ([("jsonrpc", .str "2.0")] ++
    (match id with | some v => [("id", v)] | none => []) ++
    [("result", result)])

/-- The error frame built by `sendJsonRpcError`. -/
def mkError (id : Option Json) (code : Int) (message : String) : Json :=
  .obj ([("jsonrpc", .str "2.0")] ++
    (match id with | some v => [("id", v)] | none => []) ++
    [("error", .obj [("code", .num code), ("message", .str message)])])

/-- The `sendJsonRpcResponse` method: one serialized frame plus exactly one
newline written to stdout. -/
def sendJsonRpcResponse (id : Option Json) (result : Json) : Event :=
  .stdout (serializeJson (mkResponse id result) ++ "\n")

/-- The `sendJsonRpcError` method: one serialized frame plus exactly one
newline written to stdout. -/
def sendJsonRpcError (id : Option Json) (code : Int) (message : String) : Event :=
  .stdout (serializeJson (mkError id code message) ++ "\n")

/-- A JSON-RPC response or error object as emitted by the two senders. -/
def IsRpcFrame (f : Json) : Prop :=
  (∃ id r, f = mkResponse id r) ∨ (∃ id c m, f = mkError id c m)

/-- Outcomes of the network suspension points a single dispatched message can
reach: the catalog fetch (for `tools/list`) and the tool invocation (for
`tools/call`), plus the clock readings. -/
structure DispatchEnv where
  now : Int
  nowIso : String
  fetch : Except HError ToolCatalogResponse
  invoke : Except HError ToolInvocationResponse

/-- Tool invocation request (`ToolInvocationRequest`). -/
structure ToolInvocationRequest where
  tool : String
  arguments : Json

/-- The `invokeTool()` method: logs, issues `POST /v1/tools/invoke`, and
passes the outcome through (rethrowing failures). -/
def invokeToolM (req : ToolInvocationRequest)
    (outcome : Except HError ToolInvocationResponse) :
    Except HError ToolInvocationResponse × List Event :=
  (outcome,
   [.stderr ("[client] Invoking tool: " ++ req.tool),
    .http "POST" "/v1/tools/invoke"] ++
   match outcome with
   | .ok _ => [.stderr ("[client] Tool invocation successful: " ++ req.tool)]
   | .error _ => [.stderr ("[client] Tool invocation failed: " ++ req.tool)])

/-- Check of `message.jsonrpc`: the guard
`!message.jsonrpc || message.jsonrpc !== '2.0'` rejects exactly the values
that are not the (truthy) string `"2.0"`. -/
def isVersion2 : Option Json → Bool
  | some (.str v) => v = "2.0"
  | _ => false

/-- Extraction of a valid `name` parameter for `tools/call`: the guard
`!name || typeof name !== 'string'` rejects non-strings and the falsy empty
string. -/
def validToolName : Option Json → Option String
  | some (.str nm) => if nm = "" then none else some nm
  | _ => none

/-- The `handleInitialize` method: static metadata, no backend call. -/
def handleInitialize (msg : Json) : List Event :=
  [sendJsonRpcResponse (getField msg "id")
    (.obj [("protocolVersion", .str "2024-11-05"),
           ("capabilities", .obj [("tools", .obj [])]),
           ("serverInfo", .obj [("name", .str "@mcpambassador/client"),
                                ("version", .str "0.1.0")])])]

/-- The `handleToolsList` method: delegates to `getToolCatalog()`, maps each
descriptor to the MCP shape, and degrades to error `-32603` on failure. -/
def handleToolsList (cfg : ClientConfig) (s : ClientState) (env : DispatchEnv)
    (msg : Json) : ClientState × List Event :=
  let out := getToolCatalogM cfg s env.now env.nowIso env.fetch
  match out.2.1 with
  | .ok catalog =>
      (out.1, out.2.2 ++
        [sendJsonRpcResponse (getField msg "id")
          (.obj [("tools", .arr (catalog.tools.map (fun t =>
            .obj [("name", .str t.name),
                  ("description", .str t.description),
                  ("inputSchema", t.input_schema)])))])])
  | .error _ =>
      (out.1, out.2.2 ++
        [.stderr "[client] tools/list failed",
         sendJsonRpcError (getField msg "id") (-32603) "Failed to fetch tool catalog"])

/-- The `handleToolsCall` method. Destructuring `message.params` throws a
`TypeError` when `params` is absent or `null`; the surrounding `catch` then
answers with `-32603`. When `params` is any other value, a missing or
non-string (or empty) `name` yields `-32602` with no backend call; otherwise
the call is forwarded via `invokeTool()` and failures map to `-32603`. -/
def handleToolsCall (env : DispatchEnv) (msg : Json) : List Event :=
  match getField msg "params" with
  | none =>
      [.stderr "[client] tools/call failed",
       sendJsonRpcError (getField msg "id") (-32603) "Tool invocation failed"]
  | some .null =>
      [.stderr "[client] tools/call failed",
       sendJsonRpcError (getField msg "id") (-32603) "Tool invocation failed"]
  | some p =>
      match validToolName (getField p "name") with
      | none =>
          [sendJsonRpcError (getField msg "id") (-32602)
            "Invalid params: name required"]
      | some nm =>
          let args : Json :=
            match getField p "arguments" with
            | some a => if truthy (some a) then a else .obj []
            | none => .obj []
          let inv := invokeToolM { tool := nm, arguments := args } env.invoke
          match inv.1 with
          | .ok resp =>
              inv.2 ++
                [sendJsonRpcResponse (getField msg "id")
                  (.obj [("content", resp.result), ("isError", .bool false)])]
          | .error _ =>
              inv.2 ++
                [.stderr "[client] tools/call failed",
                 sendJsonRpcError (getField msg "id") (-32603)
                   "Tool invocation failed"]

/-- The `handleJsonRpcMessage` method: parse (outcome given as the `parsed`
argument), validate the JSON-RPC version, and route on the method name; a
parse or version failure is answered with `-32700` and a `null` identifier,
an unknown method with `-32601`. -/
def handleJsonRpcMessage (cfg : ClientConfig) (s : ClientState)
    (env : DispatchEnv) (parsed : Except Unit Json) : ClientState × List Event :=
  match parsed with
  | .error _ =>
      (s, [.stderr "[client] Failed to parse JSON-RPC message",
           sendJsonRpcError (some .null) (-32700) "Parse error"])
  | .ok msg =>
      if !isVersion2 (getField msg "jsonrpc") then
        (s, [.stderr "[client] Failed to parse JSON-RPC message",
             sendJsonRpcError (some .null) (-32700) "Parse error"])
      else
        match getField msg "method" with
        | some (.str "tools/list") => handleToolsList cfg s env msg
        | some (.str "tools/call") => (s, handleToolsCall env msg)
        | some (.str "initialize") => (s, handleInitialize msg)
        | _ => (s, [sendJsonRpcError (getField msg "id") (-32601) "Method not found"])

/-- The `start()` method, up to the installation of the stdin listener: a
second start throws; otherwise the initial catalog fetch runs with failures
only logged (stdin line handling is modelled by `onData` and
`handleJsonRpcMessage`). -/
def startM (cfg : ClientConfig) (s : ClientState) (now : Int) (nowIso : String)
    (fetch : Except HError ToolCatalogResponse) :
    Except String (ClientState × List Event) :=
  if s.isRunning then .error "Client already running"
  else
    let out := getToolCatalogM cfg { s with isRunning := true } now nowIso fetch
    .ok (out.1,
      [.stderr "[client] Starting MCP server on stdio..."] ++ out.2.2 ++
      (match out.2.1 with
       | .error _ =>
           [.stderr "[client] Initial catalog fetch failed, will retry on demand"]
       | .ok _ => []) ++
      [.stderr "[client] MCP server started successfully"])

/-- Every stdout write in a trace is one serialized JSON-RPC response or
error frame followed by exactly one newline. -/
def StdoutIsFrames (evs : List Event) : Prop :=
  ∀ e ∈ evs, ∀ str, e = .stdout str →
    ∃ f, IsRpcFrame f ∧ str = serializeJson f ++ "\n"

/-- Fixed concrete configuration used by the concrete evaluations below. -/
def cfg0 : ClientConfig :=
  { server_url := "https://localhost:8443", preshared_key := "amb_pk_key123",
    friendly_name := "dev", host_tool := "vscode",
    heartbeat_interval_seconds := 60, cache_ttl_seconds := 60,
    disable_cache := false, allow_self_signed := false }

/-- Fixed concrete running client state with no session and no cache. -/
def state0 : ClientState :=
  { toolCatalogCache := none, isRunning := true, sessionId := none,
    sessionToken := none, connectionId := none, expiresAt := none,
    heartbeatOn := false, isReregistering := false }

/-- Fixed concrete dispatch environment (both network calls would fail). -/
def env0 : DispatchEnv :=
  { now := 0, nowIso := "1970-01-01T00:00:00.000Z",
    fetch := .error .invalidJson, invoke := .error .invalidJson }

/-- The concrete MCP handshake message `notifications/initialized`: a
JSON-RPC notification (it carries no identifier). -/
def notifMsg : Json :=
  .obj [("jsonrpc", .str "2.0"), ("method", .str "notifications/initialized")]

/-- Raw outcome of one physical HTTP exchange, as seen by the `res.on('end')`
handler of `httpRequest`: a 2xx whose body parses, a 2xx whose body does not
parse, a non-2xx whose body parses to a structured `error`/`message` pair,
or a request-level network error. -/
inductive RawResp where
  | ok (body : Json)
  | okBadBody
  | errS (status : Nat) (errorCode : String) (errorMessage : String)
  | net (msg : String)

/-- Observable outcome of one `httpRequest` call tree: its result, how many
physical responses it consumed, how many times `register()` was invoked, the
`(retryOn401, isReregistering)` flags of every physical request issued (in
order), and the final value of the `isReregistering` flag. -/
structure HttpOut where
  result : Except HError Json
  consumed : Nat
  registers : Nat
  calls : List (Bool × Bool)
  reregAfter : Bool

/-- The `httpRequest` method's response handling. `resps` lists the raw
responses the network returns to the successive physical requests this call
tree issues. On a 401 with `retryOn401` set and no re-registration in
flight, the flag is raised, `register()` runs (itself one `httpRequest` with
`retryOn401` defaulted to `true` while the flag is up; its session-state
effects are modelled by `registerM`), and on its success the original
request is retried exactly once with `retryOn401 = false`; both a register
failure and a retry failure surface as the wrapped `Re-registration failed`
error, and the flag is lowered when the branch settles. Every other non-2xx
response becomes an `HttpError`. An exhausted `resps` list is reported as a
network error (the model never runs past the supplied environment in the
theorems below). -/
def httpRun (retry isRereg : Bool) (resps : List RawResp) : HttpOut :=
  match resps with
  | [] =>
      { result := .error (.network "no response"), consumed := 0,
        registers := 0, calls := [], reregAfter := isRereg }
  | r :: rest =>
      match r with
      | .ok body =>
          { result := .ok body, consumed := 1, registers := 0,
            calls := [(retry, isRereg)], reregAfter := isRereg }
      | .okBadBody =>
          { result := .error .invalidJson, consumed := 1, registers := 0,
            calls := [(retry, isRereg)], reregAfter := isRereg }
      | .net m =>
          { result := .error (.network m), consumed := 1, registers := 0,
            calls := [(retry, isRereg)], reregAfter := isRereg }
      | .errS st code msg =>
          if _hguard : st = 401 ∧ retry = true ∧ isRereg = false then
            let reg := httpRun true true rest
            match reg.result with
            | .ok _ =>
                let second := httpRun false true (rest.drop reg.consumed)
                { result :=
                    match second.result with
                    | .ok b => .ok b
                    | .error e2 => .error (.reregFailed e2),
                  consumed := 1 + reg.consumed + second.consumed,
                  registers := 1 + reg.registers + second.registers,
                  calls := (retry, isRereg) :: (reg.calls ++ second.calls),
                  reregAfter := false }
            | .error e1 =>
                { result := .error (.reregFailed e1),
                  consumed := 1 + reg.consumed,
                  registers := 1 + reg.registers,
                  calls := (retry, isRereg) :: reg.calls,
                  reregAfter := false }
          else
            { result := .error (.httpErr st code msg), consumed := 1,
              registers := 0, calls := [(retry, isRereg)],
              reregAfter := isRereg }
termination_by (if isRereg then 0 else 1)
decreasing_by
  all_goals simp [_hguard.2.2]

/-- Method names the dispatcher routes to a handler. -/
def isKnownMethod : Option Json → Bool
  | some (.str "tools/list") => true
  | some (.str "tools/call") => true
  | some (.str "initialize") => true
  | _ => false

/-- A concrete `tools/call` request carrying no `params` value at all. -/
def callNoParams : Json :=
  .obj [("jsonrpc", .str "2.0"), ("id", .num 1), ("method", .str "tools/call")]

/-- The stdin buffer ceiling (`MAX_BUFFER_SIZE`, 10 MiB). -/
def MAX_BUFFER_SIZE : Nat := 10 * 1024 * 1024

/-- The per-message ceiling (`MAX_MESSAGE_SIZE`, 1 MiB). -/
def MAX_MESSAGE_SIZE : Nat := 1 * 1024 * 1024

/-- The split `const lines = buffer.split('\n'); buffer = lines.pop() || ''`:
returns the newline-terminated segments in order, and the trailing segment
after the last newline (possibly empty). -/
def splitComplete : List Char → List (List Char) × List Char
  | [] => ([], [])
  | c :: rest =>
      let r := splitComplete rest
      if c = '\n' then ([] :: r.1, r.2)
      else
        match r.1 with
        | [] => ([], c :: r.2)
        | seg :: more => ((c :: seg) :: more, r.2)

/-- State of the stdin frame reader: the retained incomplete line and the
lines handed to `handleJsonRpcMessage` so far, in order. -/
structure ReaderState where
  buffer : List Char
  emitted : List (List Char)

/-- Emission condition of the per-line loop: `if (line.trim())` skips
blank/whitespace-only lines, then an oversized line is discarded with
`continue`; a line is handed to the handler exactly when it is not
whitespace-only and within the per-message ceiling. -/
def goodLine (l : List Char) : Bool :=
  !(l.all (fun c => c.isWhitespace)) && l.length ≤ MAX_MESSAGE_SIZE

/-- The `process.stdin.on('data')` handler: append the chunk, terminate the
process (modelled as `none`) if the accumulated buffer exceeds the buffer
ceiling, otherwise split off the complete lines, retain the trailing
incomplete segment, and emit the good lines in order. -/
def onData (st : ReaderState) (chunk : List Char) : Option ReaderState :=
  let buf := st.buffer ++ chunk
  if buf.length > MAX_BUFFER_SIZE then none
  else
    some { buffer := (splitComplete buf).2,
           emitted := st.emitted ++ (splitComplete buf).1.filter goodLine }

/-- Feeding a sequence of chunks to the reader, starting from an empty
buffer; `none` means the process terminated on buffer overflow. -/
def runReader (chunks : List (List Char)) : Option ReaderState :=
  chunks.foldl (fun acc chunk => acc.bind fun st => onData st chunk)
    (some { buffer := [], emitted := [] })

/-- Substring test: `occursIn v m` holds when `v` occurs contiguously in
`m` (JS `String.includes`). -/
def occursIn (v : List Char) : List Char → Bool
  | [] => leadsList v []
  | c :: rest => leadsList v (c :: rest) || occursIn v rest

/-- A trace with no stdout event trivially satisfies the frame invariant. -/
theorem stdoutIsFrames_of_no_stdout (evs : List Event)
    (h : ∀ str, Event.stdout str ∉ evs) : StdoutIsFrames evs := by
  intro e he str hstr
  exact absurd (hstr ▸ he) (h str)

/-- Extending a frame-only trace with a stderr line keeps the invariant. -/
theorem stdoutIsFrames_cons_stderr (x : String) (evs : List Event)
    (h : StdoutIsFrames evs) : StdoutIsFrames (.stderr x :: evs) := by
  intro e he str hstr
  rcases List.mem_cons.mp he with rfl | hmem
  · simp at hstr
  · exact h e hmem str hstr

/-- Extending a frame-only trace with an HTTP request keeps the invariant. -/
theorem stdoutIsFrames_cons_http (a b : String) (evs : List Event)
    (h : StdoutIsFrames evs) : StdoutIsFrames (.http a b :: evs) := by
  intro e he str hstr
  rcases List.mem_cons.mp he with rfl | hmem
  · simp at hstr
  · exact h e hmem str hstr

/-- Extending a frame-only trace with a `sendJsonRpcResponse` write keeps the
invariant. -/
theorem stdoutIsFrames_cons_resp (id : Option Json) (r : Json)
    (evs : List Event) (h : StdoutIsFrames evs) :
    StdoutIsFrames (sendJsonRpcResponse id r :: evs) := by
  intro e he str hstr
  rcases List.mem_cons.mp he with rfl | hmem
  · simp only [sendJsonRpcResponse, Event.stdout.injEq] at hstr
    exact ⟨mkResponse id r, Or.inl ⟨id, r, rfl⟩, hstr.symm⟩
  · exact h e hmem str hstr

/-- Extending a frame-only trace with a `sendJsonRpcError` write keeps the
invariant. -/
theorem stdoutIsFrames_cons_err (id : Option Json) (c : Int) (m : String)
    (evs : List Event) (h : StdoutIsFrames evs) :
    StdoutIsFrames (sendJsonRpcError id c m :: evs) := by
  intro e he str hstr
  rcases List.mem_cons.mp he with rfl | hmem
  · simp only [sendJsonRpcError, Event.stdout.injEq] at hstr
    exact ⟨mkError id c m, Or.inr ⟨id, c, m, rfl⟩, hstr.symm⟩
  · exact h e hmem str hstr

/-- Concatenating frame-only traces keeps the invariant. -/
theorem stdoutIsFrames_append (a b : List Event) (ha : StdoutIsFrames a)
    (hb : StdoutIsFrames b) : StdoutIsFrames (a ++ b) := by
  intro e he str hstr
  rcases List.mem_append.mp he with h | h
  exacts [ha e h str hstr, hb e h str hstr]

/-- The catalog fetch emits only stderr lines and HTTP requests. -/
theorem frames_getToolCatalog (cfg : ClientConfig) (s : ClientState)
    (now : Int) (nowIso : String) (fetch : Except HError ToolCatalogResponse) :
    StdoutIsFrames (getToolCatalogM cfg s now nowIso fetch).2.2 := by
  apply stdoutIsFrames_of_no_stdout
  intro str
  rcases hc : s.toolCatalogCache with _ | c <;> rcases fetch with e | resp <;>
    simp only [getToolCatalogM, getToolCatalogM.getToolCatalogFetch, hc] <;>
      (repeat' split) <;> simp

/-- Registration emits only stderr lines and HTTP requests. -/
theorem frames_register (cfg : ClientConfig) (s : ClientState)
    (out : Except HError RegistrationResponse) :
    StdoutIsFrames (registerM cfg s out).2.2 := by
  apply stdoutIsFrames_of_no_stdout
  intro str
  rcases out with e | r <;> simp [registerM]

/-- Tool invocation emits only stderr lines and HTTP requests. -/
theorem frames_invoke (req : ToolInvocationRequest)
    (out : Except HError ToolInvocationResponse) :
    StdoutIsFrames (invokeToolM req out).2 := by
  apply stdoutIsFrames_of_no_stdout
  intro str
  rcases out with e | r <;> simp [invokeToolM]

/-- The stop path emits only stderr lines and HTTP requests. -/
theorem frames_stop (s : ClientState) : StdoutIsFrames (stopM s).2 := by
  apply stdoutIsFrames_of_no_stdout
  intro str
  by_cases hrun : s.isRunning
  · rcases hcid : s.connectionId with _ | cid <;>
      simp [stopM, stopHeartbeat, hrun, hcid]
  · simp [stopM, hrun]

/-- Dispatching one message writes only serialized frames to stdout. -/
theorem frames_dispatch (cfg : ClientConfig) (s : ClientState)
    (env : DispatchEnv) (parsed : Except Unit Json) :
    StdoutIsFrames (handleJsonRpcMessage cfg s env parsed).2 := by
  have hnil : StdoutIsFrames [] := by
    apply stdoutIsFrames_of_no_stdout; intro str; simp
  rcases parsed with e | msg
  · exact stdoutIsFrames_cons_stderr _ _ (stdoutIsFrames_cons_err _ _ _ _ hnil)
  · simp only [handleJsonRpcMessage]
    split
    · exact stdoutIsFrames_cons_stderr _ _ (stdoutIsFrames_cons_err _ _ _ _ hnil)
    · split
      · -- tools/list
        simp only [handleToolsList]
        split
        · exact stdoutIsFrames_append _ _ (frames_getToolCatalog _ _ _ _ _)
            (stdoutIsFrames_cons_resp _ _ _ hnil)
        · exact stdoutIsFrames_append _ _ (frames_getToolCatalog _ _ _ _ _)
            (stdoutIsFrames_cons_stderr _ _ (stdoutIsFrames_cons_err _ _ _ _ hnil))
      · -- tools/call
        simp only [handleToolsCall]
        split
        · exact stdoutIsFrames_cons_stderr _ _ (stdoutIsFrames_cons_err _ _ _ _ hnil)
        · exact stdoutIsFrames_cons_stderr _ _ (stdoutIsFrames_cons_err _ _ _ _ hnil)
        · split
          · exact stdoutIsFrames_cons_err _ _ _ _ hnil
          · split
            · exact stdoutIsFrames_append _ _ (frames_invoke _ _)
                (stdoutIsFrames_cons_resp _ _ _ hnil)
            · exact stdoutIsFrames_append _ _ (frames_invoke _ _)
                (stdoutIsFrames_cons_stderr _ _
                  (stdoutIsFrames_cons_err _ _ _ _ hnil))
      · exact stdoutIsFrames_cons_resp _ _ _ hnil
      · exact stdoutIsFrames_cons_err _ _ _ _ hnil

/-- Start emits only stderr lines and HTTP requests. -/
theorem frames_start (cfg : ClientConfig) (s : ClientState) (now : Int)
    (nowIso : String) (fetch : Except HError ToolCatalogResponse)
    (p : ClientState × List Event) (hp : startM cfg s now nowIso fetch = .ok p) :
    StdoutIsFrames p.2 := by
  by_cases hrun : s.isRunning
  · simp [startM, hrun] at hp
  · have h : s.isRunning = false := by simpa using hrun
    simp only [startM, h, Bool.false_eq_true, if_false, Except.ok.injEq] at hp
    subst hp
    simp only [List.append_assoc, List.cons_append, List.nil_append]
    refine stdoutIsFrames_cons_stderr _ _ (stdoutIsFrames_append _ _
      (frames_getToolCatalog _ _ _ _ _) (stdoutIsFrames_append _ _ ?_ ?_))
    · split <;>
        · apply stdoutIsFrames_of_no_stdout; intro str; simp
    · apply stdoutIsFrames_of_no_stdout; intro str; simp

/-- C1: across every modelled operation of the client — message dispatch
(initialize, tools/list, tools/call, unknown method, parse error),
registration, catalog fetch, tool invocation, start and stop — every byte
sequence written to stdout is one serialized JSON-RPC response or error
frame followed by exactly one newline; log lines go to stderr (the CLI's
`configureStderrLogging` routes all `console` channels there). -/
theorem stdout_carries_only_frames :
    (∀ cfg s env parsed,
      StdoutIsFrames (handleJsonRpcMessage cfg s env parsed).2) ∧
    (∀ cfg s out, StdoutIsFrames (registerM cfg s out).2.2) ∧
    (∀ cfg s now nowIso fetch,
      StdoutIsFrames (getToolCatalogM cfg s now nowIso fetch).2.2) ∧
    (∀ req out, StdoutIsFrames (invokeToolM req out).2) ∧
    (∀ cfg s now nowIso fetch p,
      startM cfg s now nowIso fetch = .ok p → StdoutIsFrames p.2) ∧
    (∀ s, StdoutIsFrames (stopM s).2) :=
  ⟨frames_dispatch, frames_register, frames_getToolCatalog, frames_invoke,
   frames_start, frames_stop⟩

/-- C1 witness: the frame written for a concrete `initialize` request is a
serialized response frame. -/
theorem stdout_carries_only_frames_witness :
    ∃ f, IsRpcFrame f ∧
      serializeJson (mkResponse (some (.num 1))
        (.obj [("protocolVersion", .str "2024-11-05"),
               ("capabilities", .obj [("tools", .obj [])]),
               ("serverInfo", .obj [("name", .str "@mcpambassador/client"),
                                    ("version", .str "0.1.0")])])) ++ "\n" =
        serializeJson f ++ "\n" := by
  have hmem : sendJsonRpcResponse (some (.num 1))
      (.obj [("protocolVersion", .str "2024-11-05"),
             ("capabilities", .obj [("tools", .obj [])]),
             ("serverInfo", .obj [("name", .str "@mcpambassador/client"),
                                  ("version", .str "0.1.0")])]) ∈
      (handleJsonRpcMessage cfg0 state0 env0 (.ok (.obj
        [("jsonrpc", .str "2.0"), ("id", .num 1),
         ("method", .str "initialize")]))).2 := by
    exact List.mem_singleton.mpr rfl
  exact stdout_carries_only_frames.1 cfg0 state0 env0 _ _ hmem _ rfl

/-- C2: the dispatcher never checks for a missing identifier, so the
id-less notification `notifications/initialized` (sent by every MCP host
during the handshake, including this repository's own e2e test) is answered
with a `-32601` error frame written to stdout — the code writes a response
frame for a notification, contradicting the specified behavior. -/
theorem notification_gets_response_frame :
    getField notifMsg "id" = none ∧
    (handleJsonRpcMessage cfg0 state0 env0 (.ok notifMsg)).2 =
      [sendJsonRpcError none (-32601) "Method not found"] ∧
    sendJsonRpcError none (-32601) "Method not found" =
      .stdout (serializeJson (mkError none (-32601) "Method not found") ++ "\n") :=
  ⟨rfl, rfl, rfl⟩

/-- C3: an authenticated request answered with 401 while retry is allowed
and no re-authentication is in flight triggers exactly one `register()` and
exactly one retry of the original request with retry disabled — shown by the
flag trace `[(true,false),(true,true),(false,true)]` — after which a
successful retry resolves with its body, while a second 401 rejects with the
wrapped error instead of registering or retrying again (exactly three
physical requests are consumed in both cases). -/
theorem retry_on_401_exactly_once :
    (∀ c m rb b rest, httpRun true false
        (.errS 401 c m :: .ok rb :: .ok b :: rest) =
      { result := .ok b, consumed := 3, registers := 1,
        calls := [(true, false), (true, true), (false, true)],
        reregAfter := false }) ∧
    (∀ c m rb c2 m2 rest, httpRun true false
        (.errS 401 c m :: .ok rb :: .errS 401 c2 m2 :: rest) =
      { result := .error (.reregFailed (.httpErr 401 c2 m2)), consumed := 3,
        registers := 1,
        calls := [(true, false), (true, true), (false, true)],
        reregAfter := false }) := by
  constructor
  · intro c m rb b rest
    simp [httpRun]
  · intro c m rb c2 m2 rest
    simp [httpRun]

/-- C6 counterexample: for a `tools/call` request with no params object at
all, destructuring `message.params` throws, the catch answers with error
code `-32603` (not `-32602` as claimed), and no backend invocation happens. -/
theorem toolsCall_missing_params_counterexample :
    getField callNoParams "params" = none ∧
    (handleJsonRpcMessage cfg0 state0 env0 (.ok callNoParams)).2 =
      [.stderr "[client] tools/call failed",
       sendJsonRpcError (some (.num 1)) (-32603) "Tool invocation failed"] ∧
    hasHttp (handleJsonRpcMessage cfg0 state0 env0 (.ok callNoParams)).2 = false ∧
    ((-32603 : Int) = -32602 → False) :=
  ⟨rfl, rfl, rfl, by decide⟩

/-- C6 (amended): when a `params` value is present and not `null`, a missing,
non-string or empty `name` yields error `-32602` with no backend invocation;
when `params` is absent or `null` the thrown destructuring `TypeError` is
answered with `-32603`, also with no backend invocation; an unknown method
yields `-32601`. -/
theorem toolsCall_param_validation :
    (∀ env msg p, getField msg "params" = some p → p ≠ .null →
      validToolName (getField p "name") = none →
      handleToolsCall env msg =
        [sendJsonRpcError (getField msg "id") (-32602)
          "Invalid params: name required"] ∧
      hasHttp (handleToolsCall env msg) = false) ∧
    (∀ env msg,
      getField msg "params" = none ∨ getField msg "params" = some .null →
      handleToolsCall env msg =
        [.stderr "[client] tools/call failed",
         sendJsonRpcError (getField msg "id") (-32603) "Tool invocation failed"] ∧
      hasHttp (handleToolsCall env msg) = false) ∧
    (∀ cfg s env msg, isVersion2 (getField msg "jsonrpc") = true →
      isKnownMethod (getField msg "method") = false →
      (handleJsonRpcMessage cfg s env (.ok msg)).2 =
        [sendJsonRpcError (getField msg "id") (-32601) "Method not found"]) := by
  refine ⟨?_, ?_, ?_⟩
  · intro env msg p hp hnull hname
    rcases p with _ | b | n | str | xs | kvs
    · exact absurd rfl hnull
    all_goals exact ⟨by simp [handleToolsCall, hp, hname],
      by simp [handleToolsCall, hp, hname, hasHttp, sendJsonRpcError]⟩
  · intro env msg hp
    rcases hp with hp | hp <;>
      exact ⟨by simp [handleToolsCall, hp],
        by simp [handleToolsCall, hp, hasHttp, sendJsonRpcError]⟩
  · intro cfg s env msg hver hknown
    simp only [handleJsonRpcMessage, hver, Bool.not_true, Bool.false_eq_true,
      if_false]
    split
    all_goals
      first
      | rfl
      | (rename_i heq
         rw [heq] at hknown
         simp [isKnownMethod] at hknown)

/-- C6 witness: a `tools/call` with empty params object gets `-32602`; a
request with the unknown method `nope` gets `-32601`. -/
theorem toolsCall_param_validation_witness :
    handleToolsCall env0 (.obj [("jsonrpc", .str "2.0"), ("id", .num 2),
        ("method", .str "tools/call"), ("params", .obj [])]) =
      [sendJsonRpcError (some (.num 2)) (-32602)
        "Invalid params: name required"] ∧
    (handleJsonRpcMessage cfg0 state0 env0 (.ok (.obj [("jsonrpc", .str "2.0"),
        ("id", .num 3), ("method", .str "nope")]))).2 =
      [sendJsonRpcError (some (.num 3)) (-32601) "Method not found"] := by
  constructor
  · exact (toolsCall_param_validation.1 env0
      (.obj [("jsonrpc", .str "2.0"), ("id", .num 2),
             ("method", .str "tools/call"), ("params", .obj [])])
      (.obj []) rfl (fun h => Json.noConfusion h) rfl).1
  · exact toolsCall_param_validation.2.2 cfg0 state0 env0
      (.obj [("jsonrpc", .str "2.0"), ("id", .num 3), ("method", .str "nope")])
      rfl rfl

/-- C4: `getToolCatalog()` serves a fresh cached snapshot without any network
request; otherwise it fetches, replacing the snapshot with a fresh timestamp
unless caching is disabled; on fetch failure it falls back to any existing
snapshot (even a stale one) and only propagates the error when no snapshot
exists. -/
theorem getToolCatalog_cache_policy (cfg : ClientConfig) (s : ClientState)
    (now : Int) (nowIso : String) (fetch : Except HError ToolCatalogResponse) :
    (∀ c, s.toolCatalogCache = some c → servesFromCache cfg s now = true →
      getToolCatalogM cfg s now nowIso fetch =
        (s, .ok { tools := c.tools, api_version := "1.0", timestamp := nowIso },
         [.stderr "[client] Using cached tool catalog"]) ∧
      hasHttp (getToolCatalogM cfg s now nowIso fetch).2.2 = false) ∧
    (∀ resp, servesFromCache cfg s now = false → fetch = .ok resp →
      getToolCatalogM cfg s now nowIso fetch =
        ({ s with toolCatalogCache :=
            if !(cfg.disable_cache || cfg.cache_ttl_seconds == 0) then
              some { tools := resp.tools, cached_at := now,
                     ttl_seconds := cfg.cache_ttl_seconds }
            else s.toolCatalogCache },
         .ok resp,
         [.stderr "[client] Fetching tool catalog from server...",
          .http "GET" "/v1/tools", .stderr "[client] Fetched tools"]) ∧
      hasHttp (getToolCatalogM cfg s now nowIso fetch).2.2 = true) ∧
    (∀ e c, servesFromCache cfg s now = false → fetch = .error e →
      s.toolCatalogCache = some c →
      getToolCatalogM cfg s now nowIso fetch =
        (s, .ok { tools := c.tools, api_version := "1.0", timestamp := nowIso },
         [.stderr "[client] Fetching tool catalog from server...",
          .http "GET" "/v1/tools",
          .stderr "[client] Failed to fetch tool catalog",
          .stderr "[client] Using stale cache due to fetch failure"])) ∧
    (∀ e, servesFromCache cfg s now = false → fetch = .error e →
      s.toolCatalogCache = none →
      getToolCatalogM cfg s now nowIso fetch =
        (s, .error e,
         [.stderr "[client] Fetching tool catalog from server...",
          .http "GET" "/v1/tools",
          .stderr "[client] Failed to fetch tool catalog"])) := by
  refine ⟨?_, ?_, ?_, ?_⟩
  · intro c hc hfresh
    have hcond := hfresh
    simp only [servesFromCache, hc] at hcond
    refine ⟨?_, ?_⟩ <;>
      · simp only [getToolCatalogM, hc]
        rw [hcond]
        simp [hasHttp]
  · intro resp hmiss hfetch
    subst hfetch
    match hc : s.toolCatalogCache with
    | some c =>
        have hcond := hmiss
        simp only [servesFromCache, hc] at hcond
        refine ⟨?_, ?_⟩ <;>
          · simp only [getToolCatalogM, hc]
            rw [hcond]
            simp [getToolCatalogM.getToolCatalogFetch, hc, hasHttp]
    | none =>
        refine ⟨?_, ?_⟩ <;>
          simp [getToolCatalogM, getToolCatalogM.getToolCatalogFetch, hc, hasHttp]
  · intro e c hmiss hfetch hc
    subst hfetch
    have hcond := hmiss
    simp only [servesFromCache, hc] at hcond
    simp only [getToolCatalogM, hc]
    rw [hcond]
    simp [getToolCatalogM.getToolCatalogFetch, hc]
  · intro e hmiss hfetch hc
    subst hfetch
    simp [getToolCatalogM, getToolCatalogM.getToolCatalogFetch, hc]

/-- C4 witness: a concrete fresh-cache hit. -/
theorem getToolCatalog_cache_policy_witness :
    let cfg : ClientConfig :=
      { server_url := "https://localhost:8443", preshared_key := "amb_pk_k",
        friendly_name := "w", host_tool := "vscode",
        heartbeat_interval_seconds := 60, cache_ttl_seconds := 60,
        disable_cache := false, allow_self_signed := false }
    let c : CachedCatalog := { tools := [], cached_at := 0, ttl_seconds := 60 }
    let s : ClientState :=
      { toolCatalogCache := some c, isRunning := true, sessionId := none,
        sessionToken := none, connectionId := none, expiresAt := none,
        heartbeatOn := false, isReregistering := false }
    getToolCatalogM cfg s 1000 "t" (.error .invalidJson) =
      (s, .ok { tools := [], api_version := "1.0", timestamp := "t" },
       [.stderr "[client] Using cached tool catalog"]) ∧
    hasHttp (getToolCatalogM cfg s 1000 "t" (.error .invalidJson)).2.2 = false := by
  intro cfg c s
  exact (getToolCatalog_cache_policy cfg s 1000 "t" (.error .invalidJson)).1 c
    rfl (by decide)

/-- C9: after each public operation the four session fields are all set or
all null; a failed `register()` leaves them untouched; a successful
`register()` replaces all four at once; `stop()` of a running client clears
all four (a `stop()` of a non-running client is a no-op, see C10). -/
theorem session_all_or_none (cfg : ClientConfig) (s : ClientState)
    (out : Except HError RegistrationResponse) :
    (SessionAllOrNone s → SessionAllOrNone (registerM cfg s out).1) ∧
    (∀ e, out = .error e →
      (registerM cfg s out).1.sessionId = s.sessionId ∧
      (registerM cfg s out).1.sessionToken = s.sessionToken ∧
      (registerM cfg s out).1.connectionId = s.connectionId ∧
      (registerM cfg s out).1.expiresAt = s.expiresAt) ∧
    (∀ r, out = .ok r →
      (registerM cfg s out).1.sessionId = some r.session_id ∧
      (registerM cfg s out).1.sessionToken = some r.session_token ∧
      (registerM cfg s out).1.connectionId = some r.connection_id ∧
      (registerM cfg s out).1.expiresAt = some r.expires_at) ∧
    (SessionAllOrNone s → SessionAllOrNone (stopM s).1) ∧
    (s.isRunning = true →
      (stopM s).1.sessionId = none ∧ (stopM s).1.sessionToken = none ∧
      (stopM s).1.connectionId = none ∧ (stopM s).1.expiresAt = none) := by
  refine ⟨?_, ?_, ?_, ?_, ?_⟩
  · intro hinv
    match out with
    | .ok r => simp [registerM, stopHeartbeat, SessionAllOrNone]
    | .error e => simpa [registerM, stopHeartbeat, SessionAllOrNone] using hinv
  · rintro e rfl
    simp [registerM, stopHeartbeat]
  · rintro r rfl
    simp [registerM, stopHeartbeat]
  · intro hinv
    by_cases hrun : s.isRunning
    · cases hcid : s.connectionId <;>
        simp [stopM, stopHeartbeat, hrun, hcid, SessionAllOrNone]
    · simpa [stopM, hrun] using hinv
  · intro hrun
    cases hcid : s.connectionId <;> simp [stopM, stopHeartbeat, hrun, hcid]

/-- C9 witness: concrete failed registration on an all-null state, and a
concrete stop of a running client. -/
theorem session_all_or_none_witness :
    let cfg : ClientConfig :=
      { server_url := "https://localhost:8443", preshared_key := "amb_pk_k",
        friendly_name := "w", host_tool := "vscode",
        heartbeat_interval_seconds := 60, cache_ttl_seconds := 60,
        disable_cache := false, allow_self_signed := false }
    let s : ClientState :=
      { toolCatalogCache := none, isRunning := true, sessionId := some "sid",
        sessionToken := some "tok", connectionId := some "cid",
        expiresAt := some "exp", heartbeatOn := true, isReregistering := false }
    SessionAllOrNone (registerM cfg s (.error .invalidJson)).1 ∧
    (stopM s).1.sessionId = none := by
  intro cfg s
  have h := session_all_or_none cfg s (.error .invalidJson)
  exact ⟨h.1 (Or.inl (by simp)), (h.2.2.2.2 rfl).1⟩

/-- C10: `stop()` is idempotent: on a non-running client it returns at once
with no network call, log line or state change, and running it twice leaves
the client exactly as running it once (the second run emits no event). -/
theorem stop_idempotent (s : ClientState) :
    (s.isRunning = false → stopM s = (s, [])) ∧
    stopM (stopM s).1 = ((stopM s).1, []) := by
  constructor
  · intro hrun
    simp [stopM, hrun]
  · by_cases hrun : s.isRunning
    · cases hcid : s.connectionId <;> simp [stopM, stopHeartbeat, hrun, hcid]
    · have h : s.isRunning = false := by simpa using hrun
      simp [stopM, h]

/-- C10 witness: concrete client states, running and not running. -/
theorem stop_idempotent_witness :
    let s : ClientState :=
      { toolCatalogCache := none, isRunning := false, sessionId := none,
        sessionToken := none, connectionId := none, expiresAt := none,
        heartbeatOn := false, isReregistering := false }
    stopM s = (s, []) ∧
    stopM (stopM { s with isRunning := true }).1 =
      ((stopM { s with isRunning := true }).1, []) := by
  intro s
  exact ⟨(stop_idempotent s).1 rfl, (stop_idempotent { s with isRunning := true }).2⟩

/-- Splitting a concatenation: the complete lines of `a ++ b` are the
complete lines of `a` followed by those of `a`'s trailing segment prepended
to `b`. -/
theorem splitComplete_append (a b : List Char) :
    splitComplete (a ++ b) =
      ((splitComplete a).1 ++ (splitComplete ((splitComplete a).2 ++ b)).1,
       (splitComplete ((splitComplete a).2 ++ b)).2) := by
  induction a with
  | nil => simp [splitComplete]
  | cons c a ih =>
      by_cases hc : c = '\n'
      · subst hc
        simp [splitComplete, ih]
      · rcases h1 : (splitComplete a).1 with _ | ⟨seg, more⟩
        · rcases h2 : (splitComplete ((splitComplete a).2 ++ b)).1 with _ | ⟨s2, m2⟩
          · simp [splitComplete, hc, ih, h1, h2]
          · simp [splitComplete, hc, ih, h1, h2]
        · simp [splitComplete, hc, ih, h1]

/-- The trailing segment is never longer than the input. -/
theorem splitComplete_trailing_length (l : List Char) :
    (splitComplete l).2.length ≤ l.length := by
  induction l with
  | nil => simp [splitComplete]
  | cons c rest ih =>
      by_cases hc : c = '\n'
      · subst hc
        simp only [splitComplete, if_pos rfl]
        exact ih.trans (Nat.le_succ _)
      · simp only [splitComplete, hc, if_false]
        rcases h1 : (splitComplete rest).1 with _ | ⟨seg, more⟩
        · simpa using ih
        · exact ih.trans (Nat.le_succ _)

/-- The trailing segment contains no newline, so re-splitting it yields no
complete line. -/
theorem splitComplete_trailing_fixed (l : List Char) :
    splitComplete (splitComplete l).2 = ([], (splitComplete l).2) := by
  induction l with
  | nil => simp [splitComplete]
  | cons c rest ih =>
      by_cases hc : c = '\n'
      · subst hc
        simpa [splitComplete] using ih
      · rcases h1 : (splitComplete rest).1 with _ | ⟨seg, more⟩
        · simp [splitComplete, hc, h1, ih]
        · simp [splitComplete, hc, h1, ih]

/-- Processing chunks from a newline-free buffer: as long as the accumulated
input stays within the buffer ceiling, the reader ends with the trailing
segment of the whole accumulated input as its buffer, and appends exactly
the good complete lines of that input to its emitted list. -/
theorem runReader_from (chunks : List (List Char)) (b : List Char)
    (e : List (List Char)) (hb : splitComplete b = ([], b))
    (hlen : (b ++ chunks.flatten).length ≤ MAX_BUFFER_SIZE) :
    chunks.foldl (fun acc chunk => acc.bind fun st => onData st chunk)
      (some { buffer := b, emitted := e }) =
    some { buffer := (splitComplete (b ++ chunks.flatten)).2,
           emitted := e ++ ((splitComplete (b ++ chunks.flatten)).1.filter goodLine) } := by
  induction chunks generalizing b e with
  | nil =>
      simp [hb]
  | cons c cs ih =>
      have hbuf : (b ++ c).length ≤ MAX_BUFFER_SIZE := by
        have : (b ++ c).length ≤ (b ++ (c :: cs).flatten).length := by
          simp [List.flatten_cons]
        omega
      have hstep : onData { buffer := b, emitted := e } c =
          some { buffer := (splitComplete (b ++ c)).2,
                 emitted := e ++ ((splitComplete (b ++ c)).1.filter goodLine) } := by
        simp only [onData]
        rw [if_neg (by omega)]
      have htail : ((splitComplete (b ++ c)).2 ++ cs.flatten).length ≤ MAX_BUFFER_SIZE := by
        have h1 : (splitComplete (b ++ c)).2.length ≤ (b ++ c).length :=
          splitComplete_trailing_length _
        have h2 : (b ++ (c :: cs).flatten).length =
            (b ++ c).length + cs.flatten.length := by
          simp [List.flatten_cons, Nat.add_assoc]
        simp only [List.length_append] at *
        omega
      have happ := splitComplete_append (b ++ c) cs.flatten
      calc (c :: cs).foldl (fun acc chunk => acc.bind fun st => onData st chunk)
            (some { buffer := b, emitted := e })
          = cs.foldl (fun acc chunk => acc.bind fun st => onData st chunk)
              (some { buffer := (splitComplete (b ++ c)).2,
                      emitted := e ++ ((splitComplete (b ++ c)).1.filter goodLine) }) := by
            simp [hstep]
        _ = some { buffer := (splitComplete ((splitComplete (b ++ c)).2 ++ cs.flatten)).2,
                   emitted := (e ++ ((splitComplete (b ++ c)).1.filter goodLine)) ++
                     ((splitComplete ((splitComplete (b ++ c)).2 ++ cs.flatten)).1.filter
                       goodLine) } :=
            ih _ _ (splitComplete_trailing_fixed _) htail
        _ = some { buffer := (splitComplete (b ++ (c :: cs).flatten)).2,
                   emitted := e ++ ((splitComplete (b ++ (c :: cs).flatten)).1.filter
                     goodLine) } := by
            have hj : b ++ (c :: cs).flatten = (b ++ c) ++ cs.flatten := by
              simp [List.flatten_cons]
            rw [hj, happ]
            simp [List.filter_append, List.append_assoc]

/-- C7: for every byte sequence and every partition of it into chunks (all
complete lines within the per-message ceiling, accumulated input within the
buffer ceiling), the lines handed to the message handler are exactly the
newline-split of the concatenated input with whitespace-only segments
removed, and the trailing segment not yet terminated by a newline is
retained as the buffer, never emitted. -/
theorem reader_chunking_transparent (chunks : List (List Char))
    (hbuf : chunks.flatten.length ≤ MAX_BUFFER_SIZE)
    (hmsg : ∀ seg ∈ (splitComplete chunks.flatten).1,
      seg.length ≤ MAX_MESSAGE_SIZE) :
    runReader chunks =
      some { buffer := (splitComplete chunks.flatten).2,
             emitted := (splitComplete chunks.flatten).1.filter
               (fun l => !(l.all (fun c => c.isWhitespace))) } := by
  have h := runReader_from chunks [] [] (by simp [splitComplete])
    (by simpa using hbuf)
  have hf : ((splitComplete chunks.flatten).1.filter goodLine) =
      (splitComplete chunks.flatten).1.filter
        (fun l => !(l.all (fun c => c.isWhitespace))) :=
    List.filter_congr (fun l hl => by simp [goodLine, hmsg l hl])
  simpa [runReader, hf] using h

/-- C7 witness: two complete lines split across ragged chunk boundaries are
reassembled, a blank line is dropped, and the unterminated tail is kept. -/
theorem reader_chunking_transparent_witness :
    runReader ["ab\nc".data, "d\n \n".data, "".data, "e".data] =
      some { buffer := ['e'], emitted := [['a', 'b'], ['c', 'd']] } := by
  have h := reader_chunking_transparent
    ["ab\nc".data, "d\n \n".data, "".data, "e".data] (by decide) (by decide)
  exact h.trans rfl

/-- C8: exceeding the 10 MiB buffer ceiling terminates the process at once
(the model returns `none`, before any line of the offending chunk is
processed), while a single complete line above the 1 MiB ceiling is merely
discarded: within the buffer ceiling the reader still finishes, emits
exactly the whitespace-free lines within the ceiling, and an oversized line
is never among them (later lines still are). -/
theorem reader_size_limits :
    (∀ st chunk, (st.buffer ++ chunk).length > MAX_BUFFER_SIZE →
      onData st chunk = none) ∧
    (∀ chunks, chunks.flatten.length ≤ MAX_BUFFER_SIZE →
      runReader chunks =
        some { buffer := (splitComplete chunks.flatten).2,
               emitted := (splitComplete chunks.flatten).1.filter goodLine } ∧
      ∀ l ∈ (splitComplete chunks.flatten).1, l.length > MAX_MESSAGE_SIZE →
        l ∉ (splitComplete chunks.flatten).1.filter goodLine) := by
  constructor
  · intro st chunk h
    simp only [onData]
    rw [if_pos h]
  · intro chunks h
    refine ⟨?_, ?_⟩
    · have hr := runReader_from chunks [] [] (by simp [splitComplete])
        (by simpa using h)
      simpa [runReader] using hr
    · intro l hl hlen hmem
      have hg := (List.mem_filter.mp hmem).2
      simp only [goodLine, Bool.and_eq_true, decide_eq_true_eq] at hg
      omega

/-- C8 witness: a buffer one byte over 10 MiB terminates the reader, and a
small well-formed input is processed normally. -/
theorem reader_size_limits_witness :
    onData { buffer := List.replicate 10485761 'a', emitted := [] } [] = none ∧
    runReader ["hi\n".data] =
      some { buffer := (splitComplete (["hi\n".data].flatten)).2,
             emitted := (splitComplete (["hi\n".data].flatten)).1.filter
               goodLine } := by
  constructor
  · apply reader_size_limits.1
    rw [List.append_nil, List.length_replicate]
    simp only [MAX_BUFFER_SIZE]
    omega
  · exact (reader_size_limits.2 ["hi\n".data] (by decide)).1

/-- A list starts with `v` exactly when it is `v` followed by a remainder. -/
theorem leadsList_eq_true_iff (v l : List Char) :
    leadsList v l = true ↔ ∃ u, l = v ++ u := by
  induction v generalizing l with
  | nil =>
      simp only [leadsList, true_iff]
      exact ⟨l, rfl⟩
  | cons a as ih =>
      cases l with
      | nil => simp [leadsList]
      | cons b bs =>
          simp only [leadsList, Bool.and_eq_true, decide_eq_true_eq, ih]
          constructor
          · rintro ⟨rfl, u, rfl⟩
            exact ⟨u, rfl⟩
          · rintro ⟨u, hu⟩
            injection hu with h1 h2
            exact ⟨h1.symm, u, h2⟩

/-- A substring occurrence is an occurrence at some offset. -/
theorem occursIn_eq_true_iff (v m : List Char) :
    occursIn v m = true ↔ ∃ n u, m.drop n = v ++ u := by
  induction m with
  | nil =>
      simp only [occursIn, leadsList_eq_true_iff, List.drop_nil]
      constructor
      · rintro ⟨u, hu⟩
        exact ⟨0, u, hu⟩
      · rintro ⟨n, u, hu⟩
        exact ⟨u, hu⟩
  | cons c rest ih =>
      simp only [occursIn, Bool.or_eq_true, leadsList_eq_true_iff, ih]
      constructor
      · rintro (⟨u, hu⟩ | ⟨n, u, hu⟩)
        · exact ⟨0, u, by simpa using hu⟩
        · exact ⟨n + 1, u, by simpa using hu⟩
      · rintro ⟨n, u, hu⟩
        cases n with
        | zero => exact Or.inl ⟨u, by simpa using hu⟩
        | succ k => exact Or.inr ⟨k, u, by simpa using hu⟩

/-- The `amb_pk_` branch of `maskSecret` in closed form. -/
theorem maskSecret_pk (t : List Char) :
    maskSecret (pkMark ++ t) = pkMark ++ (t.take 4 ++ "****".data) := by
  have hl : leadsList pkMark (pkMark ++ t) = true :=
    (leadsList_eq_true_iff _ _).mpr ⟨t, rfl⟩
  have hd : (pkMark ++ t).drop 7 = t := by
    have h7 : pkMark.length = 7 := rfl
    rw [← h7, List.drop_left]
  simp only [maskSecret, hl, if_true, hd, List.append_assoc]

/-- If the visible mask tail `take 4 t ++ "****"` extends the full tail `t`,
then `t` (which has at least 5 characters) must itself contain a `*`. -/
theorem star_mem_of_eq (t u : List Char) (h5 : 5 ≤ t.length)
    (h : t.take 4 ++ "****".data = t ++ u) : '*' ∈ t := by
  have h4 : (t.take 4).length = 4 := by
    rw [List.length_take]
    omega
  have hL : (t.take 4 ++ "****".data).drop 4 = "****".data := by
    rw [List.drop_append_eq_append_drop, h4,
      List.drop_eq_nil_of_le (le_of_eq h4)]
    simp
  have hR : (t ++ u).drop 4 = t.drop 4 ++ u := by
    rw [List.drop_append_eq_append_drop]
    have hz : 4 - t.length = 0 := by omega
    rw [hz]
    simp
  have hdrop : "****".data = t.drop 4 ++ u := by
    calc "****".data = (t.take 4 ++ "****".data).drop 4 := hL.symm
      _ = (t ++ u).drop 4 := by rw [h]
      _ = t.drop 4 ++ u := hR
  have hne : t.drop 4 ≠ [] := by
    intro hnil
    have := congrArg List.length hnil
    simp only [List.length_drop, List.length_nil] at this
    omega
  obtain ⟨c, cs, hc⟩ := List.exists_cons_of_ne_nil hne
  have hcstar : c = '*' := by
    have h0 := congrArg (fun l => l.headD 'x') hdrop
    rw [hc] at h0
    exact (by simpa using h0 : '*' = c).symm
  subst hcstar
  exact List.drop_subset 4 t (hc ▸ List.mem_cons_self _ _)

/-- Cancelling the `amb_pk_` marker in an occurrence equation at offset 0. -/
theorem star_mem_of_mask_eq (t u : List Char) (h5 : 5 ≤ t.length)
    (h : pkMark ++ (t.take 4 ++ "****".data) = (pkMark ++ t) ++ u) :
    '*' ∈ t := by
  have h' : pkMark ++ (t.take 4 ++ "****".data) = pkMark ++ (t ++ u) := by
    rw [h, List.append_assoc]
  exact star_mem_of_eq t u h5 (List.append_cancel_left h')

/-- C5 counterexample: for the degenerate preshared key `amb_pk_ab` (at most
4 characters after the marker) the mask is the key itself followed by
`****`, so both the mask and the register log line contain the credential
unmasked. -/
theorem maskSecret_contains_short_key :
    occursIn "amb_pk_ab".data (maskSecret "amb_pk_ab".data) = true ∧
    occursIn "amb_pk_ab".data (registerLogChars "amb_pk_ab".data) = true := by
  constructor <;> decide

/-- Core of the masking argument: a well-formed `amb_pk_` credential (at
least 5 tail characters, no `*`) cannot occur in a text of the shape
`Q ++ "amb_pk_" ++ take 4 tail ++ "****"`, provided the only place the
characters `amb` line up in the prefix region is at the marker itself. -/
theorem occurs_false_general (Q t : List Char) (h5 : 5 ≤ t.length)
    (hstar : '*' ∉ t)
    (hQ : ∀ k, k ≤ Q.length + 3 →
      (((Q ++ pkMark).drop k).take 3 = ['a', 'm', 'b'] → k = Q.length)) :
    occursIn (pkMark ++ t) ((Q ++ pkMark) ++ (t.take 4 ++ "****".data)) = false := by
  rw [Bool.eq_false_iff]
  intro hocc
  obtain ⟨n, u, hnu⟩ := (occursIn_eq_true_iff _ _).mp hocc
  have hpk7 : pkMark.length = 7 := rfl
  have hstars : ("****".data).length = 4 := rfl
  have hrest_len : (t.take 4 ++ "****".data).length = 8 := by
    rw [List.length_append, List.length_take, hstars]
    omega
  have hm_len : ((Q ++ pkMark) ++ (t.take 4 ++ "****".data)).length =
      Q.length + 15 := by
    rw [List.length_append, List.length_append, hpk7, hrest_len]
  have hv_len : (pkMark ++ t).length = 7 + t.length := by
    simp [hpk7]
  have hlen := congrArg List.length hnu
  rw [List.length_drop, hm_len, List.length_append, hv_len] at hlen
  have hn : n ≤ Q.length + 3 := by omega
  have htake3 : (((Q ++ pkMark) ++ (t.take 4 ++ "****".data)).drop n).take 3 =
      ((Q ++ pkMark).drop n).take 3 := by
    rw [List.drop_append_eq_append_drop]
    have hz : n - (Q ++ pkMark).length = 0 := by
      rw [List.length_append, hpk7]
      omega
    rw [hz, List.drop_zero, List.take_append_eq_append_take]
    have h3 : 3 - ((Q ++ pkMark).drop n).length = 0 := by
      rw [List.length_drop, List.length_append, hpk7]
      omega
    rw [h3, List.take_zero, List.append_nil]
  have hvu3 : ((pkMark ++ t) ++ u).take 3 = ['a', 'm', 'b'] := by
    rw [List.append_assoc, List.take_append_eq_append_take]
    have h0 : 3 - pkMark.length = 0 := by rw [hpk7]
    rw [h0, List.take_zero, List.append_nil]
    rfl
  have hn_eq : n = Q.length := by
    apply hQ n hn
    rw [← htake3, hnu, hvu3]
  subst hn_eq
  have hdropQ : ((Q ++ pkMark) ++ (t.take 4 ++ "****".data)).drop Q.length =
      pkMark ++ (t.take 4 ++ "****".data) := by
    rw [List.append_assoc, List.drop_left]
  rw [hdropQ] at hnu
  exact hstar (star_mem_of_mask_eq t u h5 hnu)

/-- C5 (amended): for every preshared credential of the documented shape —
the `amb_pk_` marker followed by at least 5 further characters, containing
no `*` — neither the mask `maskSecret(v)` nor the full register() log line
built from it contains the credential as a substring (credentials with 4 or
fewer characters after the marker are reproduced verbatim inside the mask,
see the counterexample). -/
theorem maskSecret_hides_wellformed_key (t : List Char) (h5 : 5 ≤ t.length)
    (hstar : '*' ∉ pkMark ++ t) :
    occursIn (pkMark ++ t) (maskSecret (pkMark ++ t)) = false ∧
    occursIn (pkMark ++ t) (registerLogChars (pkMark ++ t)) = false := by
  have hst : '*' ∉ t := fun h => hstar (List.mem_append_right _ h)
  constructor
  · rw [maskSecret_pk]
    have h := occurs_false_general [] t h5 hst (by decide)
    simpa using h
  · rw [registerLogChars, maskSecret_pk]
    have h := occurs_false_general
      "[client] Registering with preshared key: ".data t h5 hst (by decide)
    rw [← List.append_assoc] at h
    exact h

/-- C5 witness: the mask and register log line for `amb_pk_hello` do not
contain the credential. -/
theorem maskSecret_hides_wellformed_key_witness :
    occursIn (pkMark ++ "hello".data)
        (maskSecret (pkMark ++ "hello".data)) = false ∧
    occursIn (pkMark ++ "hello".data)
        (registerLogChars (pkMark ++ "hello".data)) = false :=
  maskSecret_hides_wellformed_key "hello".data (by decide) (by decide)

end Ambassador
